import Mathlib

/-!
Verification of the solarpi BLE acquisition engine (src/solarpi/monitor.py,
src/solarpi/db.py) against its natural-language specification.

Bytes are modelled as `Nat` values below 256 (Python `bytearray` entries).
Python `float` arithmetic is modelled over `ℚ`; `time()` stamps are
abstracted to explicit `now` parameters. `int(s)` on a non-decimal string
raising `ValueError` is modelled by an explicit error flag.
-/

/-- Mirror of `db.State` (src/solarpi/db.py): the single shared telemetry
aggregate. Only the dataclass fields are modelled (derived `@property`
values are recomputed, not stored). `battery_is_temp_in_f` defaults to
`True` (class-level default in the source). -/
structure State where
  timestamp : Nat := 0
  battery_voltage : ℚ := 0
  battery_current : ℚ := 0
  battery_is_charging : Bool := false
  battery_is_temp_in_f : Bool := true
  battery_ah : ℚ := 0
  battery_temp : ℚ := 0
  battery_total_charge_energy : ℚ := 0
  battery_total_discharge_energy : ℚ := 0
  solar_panel_voltage : ℚ := 0
  charger_voltage : ℚ := 0
  charger_current : ℚ := 0
  charger_temp : ℚ := 0
  charger_total_energy : ℚ := 0
  charger_status : Nat := 0
  room_temp : ℚ := 0
  deriving DecidableEq, Repr

/-- `BatteryMonitor.is_cmd` (monitor.py line 40): a byte at or above 0xA0
is a command/field id. -/
def is_cmd (c : Nat) : Bool := 0xA0 ≤ c

/-- Both hex digits of the byte are decimal digits (0-9): exactly the
condition under which Python `int(bytes([b]).hex())` does not raise. -/
def bcdOk (b : Nat) : Bool := b / 16 ≤ 9 && b % 16 ≤ 9

/-- The two decimal digits contributed by one byte when its hex rendering
is parsed base-10. -/
def bcdByte (b : Nat) : Nat := (b / 16) * 10 + b % 16

/-- Numeric value of `int(data.hex())` for a byte string whose hex
rendering is all decimal digits. -/
def bcdVal (data : List Nat) : Nat := data.foldl (fun acc b => acc * 100 + bcdByte b) 0

/-- Model of Python `int(data.hex())`: `none` when the hex rendering of
some byte contains a non-decimal digit (Python raises `ValueError`). -/
def intHex (data : List Nat) : Option Nat :=
  if data.all bcdOk then some (bcdVal data) else none

/-- Round-half-to-even on an exact rational, modelling Python `round`
(the source rounds a float; we model the exact-rational idealization). -/
def roundHalfEven (q : ℚ) : ℤ :=
  let f := ⌊q⌋
  let r := q - f
  if r < 1 / 2 then f
  else if 1 / 2 < r then f + 1
  else if f % 2 = 0 then f else f + 1

/-- Python `round(x, 1)` on an exact rational. -/
def pyRound1 (x : ℚ) : ℚ := (roundHalfEven (10 * x) : ℚ) / 10

/-- Result of one battery-monitor decode: the (possibly partially
mutated) state, the `changed` flag, and whether `int(data.hex())` raised
`ValueError` (aborting the rest of the frame before the timestamp
update). -/
structure BMResult where
  state : State
  changed : Bool
  errored : Bool
  deriving DecidableEq, Repr

/-- Field ids handled by `decode_battery_monitor_data`'s `elif` chain
(monitor.py lines 236-264); only these reach `int(data.hex())`. -/
def recognizedCmd (c : Nat) : Bool :=
  c == 0xC0 || c == 0xC1 || c == 0xD4 || c == 0xD3 || c == 0xD2 || c == 0xD1
    || c == 0xF7 || c == 0xD9

/-- The per-field-id state writes of `decode_battery_monitor_data`'s
`elif` chain (monitor.py lines 236-264), applied to the already-parsed
value `v = int(data.hex())`. The 0xD9 branch converts to Celsius using
the current Fahrenheit flag. -/
def applyCmd (st : State) (c v : Nat) : State :=
  if c = 0xC0 then { st with battery_voltage := (v : ℚ) / 100 }
  else if c = 0xC1 then { st with battery_current := (v : ℚ) / 100 }
  else if c = 0xD4 then { st with battery_total_charge_energy := (v : ℚ) / 100 }
  else if c = 0xD3 then { st with battery_total_discharge_energy := (v : ℚ) / 100 }
  else if c = 0xD2 then { st with battery_ah := (v : ℚ) / 1000 }
  else if c = 0xD1 then { st with battery_is_charging := v = 1 }
  else if c = 0xF7 then { st with battery_is_temp_in_f := v = 1 }
  else if c = 0xD9 then
    { st with room_temp :=
        if st.battery_is_temp_in_f then pyRound1 (((v : ℚ) - 32 - 5) * 5 / 9)
        else (v : ℚ) - 100 }
  else st

/-- The `for c in packet[1:-1]` loop of `decode_battery_monitor_data`
(monitor.py lines 233-267): bytes accumulate into `data` until a command
byte arrives with a non-empty pending buffer; a recognized field id then
parses `int(data.hex())` and writes its field (setting `changed`), an
unrecognized one just resets `data`. A failed parse models the uncaught
`ValueError`: the loop stops, mutations made so far kept, error flagged. -/
def decodeBMLoop (st : State) (data : List Nat) (changed : Bool) : List Nat → BMResult
  | [] => ⟨st, changed, false⟩
  | c :: rest =>
    if is_cmd c && !data.isEmpty then
      if recognizedCmd c then
        match intHex data with
        | none => ⟨st, changed, true⟩
        | some v => decodeBMLoop (applyCmd st c v) [] true rest
      else
        decodeBMLoop st [] changed rest
    else
      decodeBMLoop st (data ++ [c]) changed rest

/-- The tail of `decode_battery_monitor_data` (monitor.py lines 269-270):
`state.update_timestamp()` runs iff `changed` is set and the loop did not
raise. -/
def bmFinish (r : BMResult) (now : Nat) : BMResult :=
  if r.errored then r
  else if r.changed then { r with state := { r.state with timestamp := now } }
  else r

/-- `decode_battery_monitor_data` (monitor.py lines 219-270): run the
field-pair loop over `packet[1:-1]`, then set the timestamp iff `changed`
(skipped when the loop raised). `now` abstracts `int(time())`. -/
def decode_battery_monitor_data (packet : List Nat) (st : State) (now : Nat) : BMResult :=
  bmFinish (decodeBMLoop st [] false ((packet.drop 1).dropLast)) now

/-- Value of `int(p[i:j].hex(), base=16)`: the byte slice read as a
big-endian base-256 integer (exact for bytes below 256). -/
def beSlice (p : List Nat) (i j : Nat) : Nat :=
  ((p.drop i).take (j - i)).foldl (fun acc b => acc * 256 + b) 0

/-- `decode_solar_charger_data` (monitor.py lines 371-392): a frame is
accepted only when it is exactly 43 bytes with header 01 03 26; accepted
frames update the fixed-offset fields and always the timestamp; anything
else is ignored. Indexing uses `getD` (safe because the length guard is
checked first, mirroring Python short-circuit evaluation). -/
def decode_solar_charger_data (packet : List Nat) (st : State) (now : Nat) : State :=
  if packet.length = 43 ∧ packet.getD 0 0 = 0x01 ∧ packet.getD 1 0 = 0x03
      ∧ packet.getD 2 0 = 0x26 then
    let t := packet.getD 12 0
    { st with
      charger_voltage := (beSlice packet 5 7 : ℚ) / 10
      charger_current := (beSlice packet 7 9 : ℚ) / 100
      charger_temp := (packet.getD 11 0 : ℚ)
      battery_temp := if t < 128 then (t : ℚ) else 128 - (t : ℚ)
      solar_panel_voltage := (beSlice packet 19 21 : ℚ) / 10
      charger_total_energy := (beSlice packet 33 37 : ℚ)
      charger_status := packet.getD 28 0
      timestamp := now }
  else
    st

/-- Specification-side big-endian value of a byte string: the claim's
"true big-endian binary interpretation", defined positionally. -/
def specBE : List Nat → Nat
  | [] => 0
  | b :: t => b * 256 ^ t.length + specBE t

/-- State-independent characterization of when the battery-monitor decode
loop raises `ValueError`: a recognized field id fires on a non-empty
pending value whose hex rendering contains a non-decimal digit. -/
def loopErrs (data : List Nat) : List Nat → Bool
  | [] => false
  | c :: rest =>
    if is_cmd c && !data.isEmpty then
      if recognizedCmd c && !data.all bcdOk then true
      else loopErrs [] rest
    else loopErrs (data ++ [c]) rest

/-- Events seen by a streaming loop's keepalive logic: a poll-loop check
at wall time `now` (monitor.py lines 341-342 and 425-426), or a data
notification at time `now` (the callback). -/
inductive KAEvent where
  | tick (now : ℚ)
  | recv (now : ℚ)
  deriving DecidableEq, Repr

/-- One keepalive-state transition. State is the `last_sent` closure
variable (`none` models Python `None`). A tick sends iff
`last_sent is None or now - last_sent > w` and records the time; a data
notification clears `last_sent` for the charger (`resetOnRecv = true`,
monitor.py line 408) and sets it to `now` for the battery monitor
(`resetOnRecv = false`, line 314). Returns the new state and the send
time if a write was issued. Writes are modelled as succeeding. -/
def kaStep (w : ℚ) (resetOnRecv : Bool) (st : Option ℚ) : KAEvent → Option ℚ × Option ℚ
  | .tick now =>
    match st with
    | none => (some now, some now)
    | some t => if w < now - t then (some now, some now) else (some t, none)
  | .recv now => (if resetOnRecv then none else some now, none)

/-- Run the keepalive logic over an event list, collecting the times of
the keepalive writes issued, in order. -/
def kaRun (w : ℚ) (resetOnRecv : Bool) (st : Option ℚ) : List KAEvent → Option ℚ × List ℚ
  | [] => (st, [])
  | e :: es =>
    let r := kaStep w resetOnRecv st e
    let rest := kaRun w resetOnRecv r.1 es
    (rest.1, r.2.toList ++ rest.2)

/-- Every consecutive pair in the list (seeded with `prev`) is more than
`w` apart. -/
def gapsOK (w : ℚ) : ℚ → List ℚ → Prop
  | _, [] => True
  | prev, t :: ts => w < t - prev ∧ gapsOK w t ts

/-- The event list contains only poll ticks (no data notifications). -/
def allTicks (evs : List KAEvent) : Bool :=
  evs.all fun e => match e with | .tick _ => true | .recv _ => false

/-- Scanner-loop state: the `ERROR_COUNT` global, the `scan_attempts`
local, whether each role's client handle is bound, and a count of
adapter power-cycles performed (`reset_bluetooth` calls). -/
structure ScanState where
  errorCount : Nat
  scanAttempts : Nat
  bm : Bool
  sc : Bool
  resets : Nat
  deriving DecidableEq, Repr

/-- What one discovery pass would match, abstracting the advertisement
loop of monitor.py lines 171-192 to whether each unbound role finds a
device. -/
structure ScanFound where
  foundBM : Bool
  foundSC : Bool
  deriving DecidableEq, Repr

/-- One iteration of the `while True` loop of `scan_devices` (monitor.py
lines 147-216): the `ERROR_COUNT >= 5` reset (clearing both handles,
resetting only `ERROR_COUNT`), the both-bound skip, the discovery pass,
the `scan_attempts` bump on a failed pass, and the 10-failure reset
(clearing both handles, resetting only `scan_attempts`). Sleeps, config
reload and logging are omitted; `scanIter` composes the three phases. -/
def scanErrReset (st : ScanState) : ScanState :=
  if 5 ≤ st.errorCount then
    { st with resets := st.resets + 1, bm := false, sc := false, errorCount := 0 }
  else st

def scanAfterMatch (st : ScanState) : ScanState :=
  if st.bm && st.sc then { st with scanAttempts := 0 }
  else if 10 ≤ st.scanAttempts + 1 then
    { st with scanAttempts := 0, resets := st.resets + 1, bm := false, sc := false }
  else { st with scanAttempts := st.scanAttempts + 1 }

def scanPass (st : ScanState) (inp : ScanFound) : ScanState :=
  if st.bm && st.sc then st
  else scanAfterMatch { st with bm := st.bm || inp.foundBM, sc := st.sc || inp.foundSC }

def scanIter (st : ScanState) (inp : ScanFound) : ScanState :=
  scanPass (scanErrReset st) inp

/-- Earliest index of the frame-end marker 0xEE: `read_buffer.find(DATA_END)`
(monitor.py line 299), with `none` for Python's -1. -/
def findEnd (buf : List Nat) : Option Nat := buf.findIdx? (fun b => b == 0xEE)

/-- `read_buffer.find(LIVE_DATA_START)` (0xBB, monitor.py line 291). -/
def findStartLive (buf : List Nat) : Option Nat := buf.findIdx? (fun b => b == 0xBB)

/-- `read_buffer.find(RECORDED_DATA_START)` (0xAA, monitor.py line 292). -/
def findStartRec (buf : List Nat) : Option Nat := buf.findIdx? (fun b => b == 0xAA)

/-- The start index chosen by monitor.py lines 293-298: the minimum of the
two start-marker indices when both are found, else whichever is found. -/
def findStart (buf : List Nat) : Option Nat :=
  match findStartLive buf, findStartRec buf with
  | some a, some b => some (min a b)
  | some a, none => some a
  | none, r => r

/-- `decode_battery_monitor_data(packet)` raises `ValueError` exactly when
this predicate holds of the packet (see `decodeBMLoop_errored_eq`); the
raise escapes the notification callback, aborting its framing loop. -/
def frameRaises (pkt : List Nat) : Bool := loopErrs [] ((pkt.drop 1).dropLast)

/-- Output of the framing loop on one buffer: the unconsumed residue, the
packets handed to `decode_battery_monitor_data` in order, and whether the
loop was cut short by a decoder `ValueError`. -/
structure FrameLoopOut where
  residue : List Nat
  frames : List (List Nat)
  aborted : Bool
  deriving DecidableEq, Repr

/-- The `while read_buffer:` framing loop of `on_battery_monitor_data`
(monitor.py lines 290-309). The discard branch (`end <= start`) executes
`break`, ending the loop for this delivery; a raising packet is still
handed to the decoder (which mutates state before raising) and then ends
the loop with the exception propagating. -/
def processBuf (buf : List Nat) : FrameLoopOut :=
  if buf = [] then ⟨buf, [], false⟩
  else
    match findEnd buf, findStart buf with
    | some e, some s =>
      if e ≤ s then ⟨buf.drop (e + 1), [], false⟩
      else
        if frameRaises ((buf.take e).drop s) then
          ⟨buf.drop (e + 1), [(buf.take e).drop s], true⟩
        else
          ⟨(processBuf (buf.drop (e + 1))).residue,
            ((buf.take e).drop s) :: (processBuf (buf.drop (e + 1))).frames,
            (processBuf (buf.drop (e + 1))).aborted⟩
    | some _, none => ⟨buf, [], false⟩
    | none, _ => ⟨buf, [], false⟩
termination_by buf.length
decreasing_by
  all_goals
    simp only [List.length_drop]
    have : buf.length ≠ 0 := by simpa [List.length_eq_zero] using (by assumption : ¬buf = [])
    omega

/-- True when the framing loop on this buffer reaches neither the
discard-and-break branch nor a raising frame. -/
def cleanBuf (buf : List Nat) : Bool :=
  if buf = [] then true
  else
    match findEnd buf, findStart buf with
    | some e, some s =>
      if e ≤ s then false
      else if frameRaises ((buf.take e).drop s) then false
      else cleanBuf (buf.drop (e + 1))
    | some _, none => true
    | none, _ => true
termination_by buf.length
decreasing_by
  all_goals
    simp only [List.length_drop]
    have : buf.length ≠ 0 := by simpa [List.length_eq_zero] using (by assumption : ¬buf = [])
    omega

/-- Frame Assembler state: the `read_buffer` closure variable together
with the history of frames handed to the decoder. -/
structure AsmState where
  buf : List Nat
  frames : List (List Nat)
  deriving DecidableEq, Repr

/-- One invocation of the notification callback `on_battery_monitor_data`
(monitor.py lines 283-314): append the chunk and run the framing loop;
if no decode raised, a residue longer than 512 bytes is discarded
entirely (lines 311-313); when a decode raises, the callback exits early
and the safety valve is skipped. -/
def on_battery_monitor_data (st : AsmState) (chunk : List Nat) : AsmState :=
  ⟨if (processBuf (st.buf ++ chunk)).aborted then (processBuf (st.buf ++ chunk)).residue
    else if 512 < (processBuf (st.buf ++ chunk)).residue.length then []
    else (processBuf (st.buf ++ chunk)).residue,
    st.frames ++ (processBuf (st.buf ++ chunk)).frames⟩

/-- Feed a sequence of notification chunks to a fresh assembler. -/
def runChunks (chunks : List (List Nat)) : AsmState :=
  chunks.foldl on_battery_monitor_data ⟨[], []⟩

/-- A run is clean from buffer `buf` onward: every delivery avoids the
discard branch and raising frames and keeps the residue within 512
bytes. -/
def cleanFrom (buf : List Nat) : List (List Nat) → Bool
  | [] => true
  | c :: cs =>
    cleanBuf (buf ++ c) && decide ((processBuf (buf ++ c)).residue.length ≤ 512)
      && cleanFrom (processBuf (buf ++ c)).residue cs


theorem findEnd_ne_nil {buf : List Nat} {e : Nat} (h : findEnd buf = some e) : buf ≠ [] := by
  rintro rfl; simp [findEnd] at h

theorem processBuf_nil : processBuf [] = ⟨[], [], false⟩ := by
  rw [processBuf.eq_def]; simp

theorem processBuf_noEnd (buf : List Nat) (h : findEnd buf = none) :
    processBuf buf = ⟨buf, [], false⟩ := by
  rw [processBuf.eq_def, h]
  split <;> rfl

theorem processBuf_noStart (buf : List Nat) (h : findStart buf = none) :
    processBuf buf = ⟨buf, [], false⟩ := by
  rw [processBuf.eq_def, h]
  rcases hE : findEnd buf <;> split <;> simp

theorem processBuf_discard (buf : List Nat) (e s : Nat) (hE : findEnd buf = some e)
    (hS : findStart buf = some s) (hle : e ≤ s) :
    processBuf buf = ⟨buf.drop (e + 1), [], false⟩ := by
  rw [processBuf.eq_def, hE, hS, if_neg (findEnd_ne_nil hE)]
  simp [hle]

theorem processBuf_abort (buf : List Nat) (e s : Nat) (hE : findEnd buf = some e)
    (hS : findStart buf = some s) (hlt : s < e)
    (hR : frameRaises ((buf.take e).drop s) = true) :
    processBuf buf = ⟨buf.drop (e + 1), [(buf.take e).drop s], true⟩ := by
  rw [processBuf.eq_def, hE, hS, if_neg (findEnd_ne_nil hE)]
  simp [Nat.not_le.mpr hlt, hR]

theorem processBuf_decode (buf : List Nat) (e s : Nat) (hE : findEnd buf = some e)
    (hS : findStart buf = some s) (hlt : s < e)
    (hR : frameRaises ((buf.take e).drop s) = false) :
    processBuf buf =
      ⟨(processBuf (buf.drop (e + 1))).residue,
        ((buf.take e).drop s) :: (processBuf (buf.drop (e + 1))).frames,
        (processBuf (buf.drop (e + 1))).aborted⟩ := by
  rw [processBuf.eq_def, hE, hS, if_neg (findEnd_ne_nil hE)]
  simp [Nat.not_le.mpr hlt, hR]

theorem cleanBuf_nil : cleanBuf [] = true := by
  rw [cleanBuf.eq_def]; simp

theorem cleanBuf_noEnd (buf : List Nat) (h : findEnd buf = none) :
    cleanBuf buf = true := by
  rw [cleanBuf.eq_def, h]
  split <;> rfl

theorem cleanBuf_noStart (buf : List Nat) (h : findStart buf = none) :
    cleanBuf buf = true := by
  rw [cleanBuf.eq_def, h]
  rcases hE : findEnd buf <;> split <;> simp

theorem cleanBuf_discard (buf : List Nat) (e s : Nat) (hE : findEnd buf = some e)
    (hS : findStart buf = some s) (hle : e ≤ s) : cleanBuf buf = false := by
  rw [cleanBuf.eq_def, hE, hS, if_neg (findEnd_ne_nil hE)]
  simp [hle]

theorem cleanBuf_abort (buf : List Nat) (e s : Nat) (hE : findEnd buf = some e)
    (hS : findStart buf = some s) (hlt : s < e)
    (hR : frameRaises ((buf.take e).drop s) = true) : cleanBuf buf = false := by
  rw [cleanBuf.eq_def, hE, hS, if_neg (findEnd_ne_nil hE)]
  simp [Nat.not_le.mpr hlt, hR]

theorem cleanBuf_decode (buf : List Nat) (e s : Nat) (hE : findEnd buf = some e)
    (hS : findStart buf = some s) (hlt : s < e)
    (hR : frameRaises ((buf.take e).drop s) = false) :
    cleanBuf buf = cleanBuf (buf.drop (e + 1)) := by
  rw [cleanBuf.eq_def, hE, hS, if_neg (findEnd_ne_nil hE)]
  simp [Nat.not_le.mpr hlt, hR]

theorem findIdx?_append_some {p : Nat → Bool} {l₁ l₂ : List Nat} {i : Nat}
    (h : l₁.findIdx? p = some i) : (l₁ ++ l₂).findIdx? p = some i := by
  rw [List.findIdx?_append, h]; rfl

theorem findIdx?_some_lt {p : Nat → Bool} {l : List Nat} {i : Nat}
    (h : l.findIdx? p = some i) : i < l.length :=
  (List.findIdx?_eq_some_iff_findIdx_eq.mp h).1

theorem findEnd_append_some {l b : List Nat} {e : Nat} (h : findEnd l = some e) :
    findEnd (l ++ b) = some e := findIdx?_append_some h

theorem findEnd_some_lt {l : List Nat} {e : Nat} (h : findEnd l = some e) : e < l.length :=
  findIdx?_some_lt h

theorem findStart_some_lt {l : List Nat} {s : Nat} (h : findStart l = some s) : s < l.length := by
  unfold findStart at h
  rcases hL : findStartLive l with _ | a <;> rcases hR : findStartRec l with _ | r <;>
      rw [hL, hR] at h <;> simp at h
  · exact h ▸ findIdx?_some_lt hR
  · exact h ▸ findIdx?_some_lt hL
  · rcases h with rfl
    exact lt_of_le_of_lt (min_le_left a r) (findIdx?_some_lt hL)

theorem findIdx?_append_none_le {p : Nat → Bool} {l b : List Nat} {x : Nat}
    (h : l.findIdx? p = none) (h2 : (l ++ b).findIdx? p = some x) : l.length ≤ x := by
  rw [List.findIdx?_append, h, Option.none_or] at h2
  rcases hB : b.findIdx? p with _ | y <;> rw [hB] at h2 <;> simp at h2
  omega

theorem findStartLive_append_some {l b : List Nat} {a : Nat} (h : findStartLive l = some a) :
    findStartLive (l ++ b) = some a := findIdx?_append_some h

theorem findStartRec_append_some {l b : List Nat} {a : Nat} (h : findStartRec l = some a) :
    findStartRec (l ++ b) = some a := findIdx?_append_some h

theorem findStartLive_some_lt {l : List Nat} {a : Nat} (h : findStartLive l = some a) :
    a < l.length := findIdx?_some_lt h

theorem findStartRec_some_lt {l : List Nat} {a : Nat} (h : findStartRec l = some a) :
    a < l.length := findIdx?_some_lt h

theorem findStartLive_append_none_le {l b : List Nat} {x : Nat} (h : findStartLive l = none)
    (h2 : findStartLive (l ++ b) = some x) : l.length ≤ x := findIdx?_append_none_le h h2

theorem findStartRec_append_none_le {l b : List Nat} {x : Nat} (h : findStartRec l = none)
    (h2 : findStartRec (l ++ b) = some x) : l.length ≤ x := findIdx?_append_none_le h h2

theorem findStart_append_some {l b : List Nat} {s : Nat} (h : findStart l = some s) :
    findStart (l ++ b) = some s := by
  unfold findStart at *
  rcases hL : findStartLive l with _ | a <;> rcases hR : findStartRec l with _ | r <;>
      rw [hL, hR] at h <;> simp at h
  · -- live absent in l, rec at r = s
    rw [findStartRec_append_some hR]
    rcases hB : findStartLive (l ++ b) with _ | x
    · exact congrArg some h
    · have hx : l.length ≤ x := findStartLive_append_none_le hL hB
      have hr : r < l.length := findStartRec_some_lt hR
      show some (min x r) = some s
      simp only [Option.some.injEq]
      omega
  · -- live at a = s, rec absent
    rw [findStartLive_append_some hL]
    rcases hB : findStartRec (l ++ b) with _ | x
    · exact congrArg some h
    · have hx : l.length ≤ x := findStartRec_append_none_le hR hB
      have ha : a < l.length := findStartLive_some_lt hL
      show some (min a x) = some s
      simp only [Option.some.injEq]
      omega
  · -- both present
    rw [findStartLive_append_some hL, findStartRec_append_some hR]
    exact congrArg some h

/-- A clean buffer never aborts its framing loop. -/
theorem cleanBuf_not_aborted_aux : ∀ (n : Nat) (buf : List Nat), buf.length ≤ n →
    cleanBuf buf = true → (processBuf buf).aborted = false := by
  intro n
  induction n with
  | zero =>
    intro buf h hc
    have hb : buf = [] := List.length_eq_zero.mp (Nat.le_zero.mp h)
    subst hb
    rw [processBuf_nil]
  | succ n ih =>
    intro buf hlen hc
    rcases hE : findEnd buf with _ | e
    · rw [processBuf_noEnd buf hE]
    · rcases hS : findStart buf with _ | s
      · rw [processBuf_noStart buf hS]
      · by_cases hle : e ≤ s
        · rw [cleanBuf_discard buf e s hE hS hle] at hc
          exact absurd hc (by simp)
        · have hlt : s < e := Nat.not_le.mp hle
          cases hR : frameRaises ((buf.take e).drop s) with
          | true =>
            rw [cleanBuf_abort buf e s hE hS hlt hR] at hc
            exact absurd hc (by simp)
          | false =>
            rw [processBuf_decode buf e s hE hS hlt hR]
            have hc1 : cleanBuf (buf.drop (e + 1)) = true := by
              rw [cleanBuf_decode buf e s hE hS hlt hR] at hc
              exact hc
            have heLen : e < buf.length := findEnd_some_lt hE
            have hlen1 : (buf.drop (e + 1)).length ≤ n := by
              simp only [List.length_drop]; omega
            exact ih _ hlen1 hc1

theorem cleanBuf_not_aborted (buf : List Nat) (hc : cleanBuf buf = true) :
    (processBuf buf).aborted = false :=
  cleanBuf_not_aborted_aux buf.length buf le_rfl hc

/-- Composition lemma for the framing loop: as long as the loop on `A`
reaches neither the discard-and-break branch nor a raising frame,
running it on `A ++ b` is the same as running it on `A` and then on the
residue with `b` appended, with the decoded frames concatenated; and
cleanliness transfers the same way. This is the heart of
chunk-invariance. -/
theorem processBuf_append_aux : ∀ (n : Nat) (A : List Nat), A.length ≤ n →
    cleanBuf A = true → ∀ b : List Nat,
    (processBuf (A ++ b) =
      ⟨(processBuf ((processBuf A).residue ++ b)).residue,
        (processBuf A).frames ++ (processBuf ((processBuf A).residue ++ b)).frames,
        (processBuf ((processBuf A).residue ++ b)).aborted⟩) ∧
    cleanBuf (A ++ b) = cleanBuf ((processBuf A).residue ++ b) := by
  intro n
  induction n with
  | zero =>
    intro A hlen hc b
    have hA : A = [] := List.length_eq_zero.mp (Nat.le_zero.mp hlen)
    subst hA
    simp [processBuf_nil]
  | succ n ih =>
    intro A hlen hc b
    rcases hE : findEnd A with _ | e
    · rw [processBuf_noEnd A hE]; simp
    · rcases hS : findStart A with _ | s
      · rw [processBuf_noStart A hS]; simp
      · by_cases hle : e ≤ s
        · rw [cleanBuf_discard A e s hE hS hle] at hc
          exact absurd hc (by simp)
        · have hlt : s < e := Nat.not_le.mp hle
          have heLen : e < A.length := findEnd_some_lt hE
          have hE' : findEnd (A ++ b) = some e := findEnd_append_some hE
          have hS' : findStart (A ++ b) = some s := findStart_append_some hS
          have hdrop : (A ++ b).drop (e + 1) = A.drop (e + 1) ++ b :=
            List.drop_append_of_le_length (by omega)
          have htake : (A ++ b).take e = A.take e :=
            List.take_append_of_le_length (le_of_lt heLen)
          cases hR : frameRaises ((A.take e).drop s) with
          | true =>
            rw [cleanBuf_abort A e s hE hS hlt hR] at hc
            exact absurd hc (by simp)
          | false =>
            have hR' : frameRaises (((A ++ b).take e).drop s) = false := by
              rw [htake]; exact hR
            have hc1 : cleanBuf (A.drop (e + 1)) = true := by
              rw [cleanBuf_decode A e s hE hS hlt hR] at hc
              exact hc
            have hlen1 : (A.drop (e + 1)).length ≤ n := by
              simp only [List.length_drop]; omega
            have IH := ih (A.drop (e + 1)) hlen1 hc1 b
            constructor
            · rw [processBuf_decode (A ++ b) e s hE' hS' hlt hR', hdrop, htake,
                processBuf_decode A e s hE hS hlt hR, IH.1]
              simp
            · rw [cleanBuf_decode (A ++ b) e s hE' hS' hlt hR', hdrop,
                processBuf_decode A e s hE hS hlt hR]
              exact IH.2

theorem processBuf_append (A : List Nat) (hc : cleanBuf A = true) (b : List Nat) :
    processBuf (A ++ b) =
      ⟨(processBuf ((processBuf A).residue ++ b)).residue,
        (processBuf A).frames ++ (processBuf ((processBuf A).residue ++ b)).frames,
        (processBuf ((processBuf A).residue ++ b)).aborted⟩ :=
  (processBuf_append_aux A.length A le_rfl hc b).1

theorem cleanBuf_append (A : List Nat) (hc : cleanBuf A = true) (b : List Nat) :
    cleanBuf (A ++ b) = cleanBuf ((processBuf A).residue ++ b) :=
  (processBuf_append_aux A.length A le_rfl hc b).2

/-- A clean chunked run from residue `(processBuf A).residue` computes
exactly the monolithic framing result on `A` with the chunks appended. -/
theorem runFrom_join : ∀ (cs : List (List Nat)) (A : List Nat) (F : List (List Nat)),
    cleanBuf A = true → cleanFrom (processBuf A).residue cs = true →
    cs.foldl on_battery_monitor_data ⟨(processBuf A).residue, F ++ (processBuf A).frames⟩
      = ⟨(processBuf (A ++ cs.flatten)).residue, F ++ (processBuf (A ++ cs.flatten)).frames⟩ := by
  intro cs
  induction cs with
  | nil =>
    intro A F hA hC
    simp
  | cons c cs ih =>
    intro A F hA hC
    simp only [cleanFrom, Bool.and_eq_true, decide_eq_true_eq] at hC
    obtain ⟨⟨hCb, hlen⟩, hCr⟩ := hC
    have hAb : (processBuf ((processBuf A).residue ++ c)).aborted = false :=
      cleanBuf_not_aborted _ hCb
    have hstep : on_battery_monitor_data ⟨(processBuf A).residue, F ++ (processBuf A).frames⟩ c
        = ⟨(processBuf ((processBuf A).residue ++ c)).residue,
            (F ++ (processBuf A).frames) ++ (processBuf ((processBuf A).residue ++ c)).frames⟩ := by
      simp only [on_battery_monitor_data]
      rw [if_neg (by simp [hAb]), if_neg (Nat.not_lt.mpr hlen)]
    have hcomp := processBuf_append A hA c
    have hA' : cleanBuf (A ++ c) = true := by
      rw [cleanBuf_append A hA c]; exact hCb
    simp only [List.foldl_cons]
    rw [hstep]
    have h1 : (processBuf ((processBuf A).residue ++ c)).residue
        = (processBuf (A ++ c)).residue := by
      rw [hcomp]
    have h2 : (F ++ (processBuf A).frames) ++ (processBuf ((processBuf A).residue ++ c)).frames
        = F ++ (processBuf (A ++ c)).frames := by
      rw [hcomp]; simp
    rw [h1, h2]
    rw [h1] at hCr
    rw [ih (A ++ c) F hA' hCr]
    simp

theorem decodeBMLoop_changed_mono : ∀ (l : List Nat) (st : State) (data : List Nat),
    (decodeBMLoop st data true l).changed = true := by
  intro l
  induction l with
  | nil => intro st data; rfl
  | cons c rest ih =>
    intro st data
    simp only [decodeBMLoop]
    split_ifs with h1 h2
    · rcases hI : intHex data with _ | v
      · rfl
      · exact ih _ _
    · exact ih _ _
    · exact ih _ _

theorem decodeBMLoop_state_of_not_changed : ∀ (l : List Nat) (st : State) (data : List Nat)
    (changed : Bool), (decodeBMLoop st data changed l).changed = false →
    (decodeBMLoop st data changed l).state = st := by
  intro l
  induction l with
  | nil => intro st data changed h; rfl
  | cons c rest ih =>
    intro st data changed h
    simp only [decodeBMLoop] at h ⊢
    split_ifs at h ⊢ with h1 h2
    · rcases hI : intHex data with _ | v <;> rw [hI] at h
      have h' : (decodeBMLoop (applyCmd st c v) [] true rest).changed = false := h
      rw [decodeBMLoop_changed_mono rest (applyCmd st c v) []] at h'
      simp at h'
    · exact ih _ _ _ h
    · exact ih _ _ _ h

theorem decodeBMLoop_errored_eq : ∀ (l : List Nat) (st : State) (data : List Nat)
    (changed : Bool), (decodeBMLoop st data changed l).errored = loopErrs data l := by
  intro l
  induction l with
  | nil => intro st data changed; rfl
  | cons c rest ih =>
    intro st data changed
    by_cases h1 : (is_cmd c && !data.isEmpty) = true
    · by_cases h2 : recognizedCmd c = true
      · simp only [decodeBMLoop, loopErrs, h1, if_true, h2]
        cases hA : data.all bcdOk with
        | false =>
          rw [show intHex data = none from by simp [intHex, hA]]
          simp [hA]
        | true =>
          rw [show intHex data = some (bcdVal data) from by simp [intHex, hA]]
          simp only [hA, Bool.not_true, Bool.and_false, Bool.false_eq_true, if_false]
          exact ih _ _ _
      · simp only [Bool.not_eq_true] at h2
        simp only [decodeBMLoop, loopErrs, h1, if_true, h2, Bool.false_and,
          Bool.false_eq_true, if_false]
        exact ih _ _ _
    · simp only [Bool.not_eq_true] at h1
      simp only [decodeBMLoop, loopErrs, h1, Bool.false_eq_true, if_false]
      exact ih _ _ _

theorem decodeBMLoop_skip : ∀ (pre : List Nat) (st : State) (data : List Nat) (changed : Bool)
    (rest : List Nat), (∀ b ∈ pre, is_cmd b = false) →
    decodeBMLoop st data changed (pre ++ rest) = decodeBMLoop st (data ++ pre) changed rest := by
  intro pre
  induction pre with
  | nil => intro st data changed rest h; simp
  | cons b pre ih =>
    intro st data changed rest h
    have hb : is_cmd b = false := h b (by simp)
    simp only [List.cons_append, decodeBMLoop, hb, Bool.false_and, Bool.false_eq_true, if_false]
    simp only [List.append_eq]
    rw [ih st (data ++ [b]) changed rest (fun x hx => h x (by simp [hx]))]
    simp

theorem foldl_be_eq_specBE : ∀ (l : List Nat) (acc : Nat),
    l.foldl (fun a b => a * 256 + b) acc = acc * 256 ^ l.length + specBE l := by
  intro l
  induction l with
  | nil => intro acc; simp [specBE]
  | cons b t ih =>
    intro acc
    simp only [List.foldl_cons, specBE, ih, List.length_cons]
    ring

theorem beSlice_eq_specBE (p : List Nat) (i j : Nat) :
    beSlice p i j = specBE ((p.drop i).take (j - i)) := by
  unfold beSlice
  rw [foldl_be_eq_specBE]
  simp

/-- C2 (corrected): when the frame-end marker is found and a start marker
is found at or after it (`end <= start`), the framing loop discards the
buffer through `end` inclusive, yields no frame from those bytes, and
stops processing for this delivery (the source executes `break`, not a
retry; remaining bytes wait for the next notification). -/
theorem claim_C2_amended (buf : List Nat) (e s : Nat) (hE : findEnd buf = some e)
    (hS : findStart buf = some s) (hle : e ≤ s) :
    processBuf buf = ⟨buf.drop (e + 1), [], false⟩ :=
  processBuf_discard buf e s hE hS hle

theorem claim_C2_amended_witness :
    findEnd [0x01, 0xEE, 0xBB] = some 1 ∧ findStart [0x01, 0xEE, 0xBB] = some 2
      ∧ processBuf [0x01, 0xEE, 0xBB] = ⟨[0xBB], [], false⟩ :=
  ⟨by decide, by decide, claim_C2_amended [0x01, 0xEE, 0xBB] 1 2 (by decide) (by decide)
    (by decide)⟩

/-- C2 counterexample to the claim as stated: with the end marker present
and no start marker (buffer `EE 01`), the code does not discard anything
(the claim says it discards through `end` inclusive); and after an
`end <= start` discard (buffer `EE BB 02 45 C0 EE`) the code does not
retry: the complete frame left in the buffer is not decoded in this
delivery (the claim's retry would decode it). -/
theorem claim_C2_counterexample :
    processBuf [0xEE, 0x01] = ⟨[0xEE, 0x01], [], false⟩
      ∧ processBuf [0xEE, 0xBB, 0x02, 0x45, 0xC0, 0xEE]
          = ⟨[0xBB, 0x02, 0x45, 0xC0, 0xEE], [], false⟩ := by
  constructor
  · exact processBuf_noStart _ (by decide)
  · exact processBuf_discard [0xEE, 0xBB, 0x02, 0x45, 0xC0, 0xEE] 0 1 (by decide) (by decide)
      (by decide)

/-- C4 (confirmed): the battery-monitor decoder parses the frame interior
(excluding the first and the last byte) as value-bytes/command-byte
pairs and decodes values by rendering the bytes as a hex string parsed
base-10; for field id 0xC0 it stores value/100 as battery voltage and
stamps the reading. -/
theorem claim_C4 (v : List Nat) (st : State) (now : Nat) (pad : Nat)
    (hne : v ≠ []) (hnc : ∀ b ∈ v, is_cmd b = false) (hok : v.all bcdOk = true) :
    (decode_battery_monitor_data ([0xBB] ++ v ++ [0xC0, pad]) st now).errored = false
    ∧ (decode_battery_monitor_data ([0xBB] ++ v ++ [0xC0, pad]) st now).state.battery_voltage
        = (bcdVal v : ℚ) / 100
    ∧ (decode_battery_monitor_data ([0xBB] ++ v ++ [0xC0, pad]) st now).state.timestamp
        = now := by
  have hint : (([0xBB] ++ v ++ [0xC0, pad] : List Nat).drop 1).dropLast = v ++ [0xC0] := by
    rw [show ([0xBB] ++ v ++ [0xC0, pad] : List Nat) = 0xBB :: (v ++ [0xC0, pad]) from by simp,
      List.drop_one, List.tail_cons,
      show (v ++ [0xC0, pad] : List Nat) = (v ++ [0xC0]) ++ [pad] from by simp,
      List.dropLast_concat]
  have hne' : v.isEmpty = false := by
    cases v
    · exact absurd rfl hne
    · rfl
  have hstep : decodeBMLoop st v false [0xC0] = ⟨applyCmd st 0xC0 (bcdVal v), true, false⟩ := by
    have h1 : is_cmd 0xC0 = true := by decide
    have h2 : recognizedCmd 0xC0 = true := by decide
    simp [decodeBMLoop, hne', h1, h2, intHex, hok]
  have hloop : decodeBMLoop st [] false ((([0xBB] ++ v ++ [0xC0, pad] : List Nat).drop 1).dropLast)
      = ⟨applyCmd st 0xC0 (bcdVal v), true, false⟩ := by
    rw [hint, decodeBMLoop_skip v st [] false [0xC0] hnc, List.nil_append, hstep]
  have hres : decode_battery_monitor_data ([0xBB] ++ v ++ [0xC0, pad]) st now
      = ⟨{ applyCmd st 0xC0 (bcdVal v) with timestamp := now }, true, false⟩ := by
    unfold decode_battery_monitor_data
    rw [hloop]
    rfl
  rw [hres]
  refine ⟨rfl, ?_, rfl⟩
  simp [applyCmd]

theorem claim_C4_witness :
    ([0x02, 0x45] : List Nat) ≠ []
    ∧ (∀ b ∈ ([0x02, 0x45] : List Nat), is_cmd b = false)
    ∧ ([0x02, 0x45] : List Nat).all bcdOk = true
    ∧ (decode_battery_monitor_data [0xBB, 0x02, 0x45, 0xC0, 0x00] {} 7).state.battery_voltage
        = 49 / 20 := by
  refine ⟨by decide, by decide, by decide, ?_⟩
  have h := (claim_C4 [0x02, 0x45] {} 7 0 (by decide) (by decide) (by decide)).2.1
  rw [show ([0xBB] ++ [0x02, 0x45] ++ [0xC0, 0x00] : List Nat)
      = [0xBB, 0x02, 0x45, 0xC0, 0x00] from rfl] at h
  rw [h]
  norm_num [bcdVal, bcdByte]

/-- C6 (confirmed): a charger frame of wrong length or wrong header bytes
is silently ignored: the shared reading, including its timestamp, is
returned completely unchanged and no error is reported. -/
theorem claim_C6 (p : List Nat) (st : State) (now : Nat)
    (h : ¬(p.length = 43 ∧ p.getD 0 0 = 0x01 ∧ p.getD 1 0 = 0x03 ∧ p.getD 2 0 = 0x26)) :
    decode_solar_charger_data p st now = st := by
  unfold decode_solar_charger_data
  rw [if_neg h]

theorem claim_C6_witness : decode_solar_charger_data [0x01, 0x03, 0x26] {} 9 = {} :=
  claim_C6 [0x01, 0x03, 0x26] {} 9 (by decide)

/-- C7 counterexample to the claim as stated: the decoder does raise on a
malformed frame: value byte 0x1F renders to hex "1f", and
`int("1f")` raises `ValueError` (modelled by the error flag) when field
id 0xC0 fires. -/
theorem claim_C7_counterexample :
    (decode_battery_monitor_data [0xBB, 0x1F, 0xC0, 0x00] {} 7).errored = true := by decide

/-- C7 (corrected): the battery-monitor decoder is not raise-free: it
raises `ValueError` exactly when a recognized field id fires on a
non-empty pending value whose hex rendering contains a non-decimal
digit, and never otherwise; the error depends only on the frame bytes,
not on the reading's state or the clock. -/
theorem claim_C7_amended (packet : List Nat) (st : State) (now : Nat) :
    (decode_battery_monitor_data packet st now).errored
      = loopErrs [] ((packet.drop 1).dropLast) := by
  unfold decode_battery_monitor_data bmFinish
  have h := decodeBMLoop_errored_eq ((packet.drop 1).dropLast) st [] false
  split_ifs <;> simpa using h

/-- C5 (confirmed): a 43-byte charger frame with header 01 03 26 is
decoded by true big-endian binary interpretation at fixed offsets:
voltage = bytes 5..6 / 10, current = bytes 7..8 / 100, charger
temperature = byte 11 raw, battery temperature = byte 12 made signed via
the `< 128` rule, panel voltage = bytes 19..20 / 10, total energy =
bytes 33..36 unscaled, status = byte 28, and the timestamp is always
updated. -/
theorem claim_C5 (p : List Nat) (st : State) (now : Nat) (hlen : p.length = 43)
    (h0 : p.getD 0 0 = 0x01) (h1 : p.getD 1 0 = 0x03) (h2 : p.getD 2 0 = 0x26) :
    decode_solar_charger_data p st now = { st with
      charger_voltage := (specBE ((p.drop 5).take 2) : ℚ) / 10
      charger_current := (specBE ((p.drop 7).take 2) : ℚ) / 100
      charger_temp := (p.getD 11 0 : ℚ)
      battery_temp := if p.getD 12 0 < 128 then (p.getD 12 0 : ℚ) else 128 - (p.getD 12 0 : ℚ)
      solar_panel_voltage := (specBE ((p.drop 19).take 2) : ℚ) / 10
      charger_total_energy := (specBE ((p.drop 33).take 4) : ℚ)
      charger_status := p.getD 28 0
      timestamp := now } := by
  unfold decode_solar_charger_data
  rw [if_pos ⟨hlen, h0, h1, h2⟩]
  simp [beSlice_eq_specBE]

theorem claim_C5_witness :
    (decode_solar_charger_data
      [0x01, 0x03, 0x26, 0, 0, 0, 0x96, 0, 0, 0, 0, 7, 200, 0, 0, 0, 0, 0, 0, 0, 0x64,
        0, 0, 0, 0, 0, 0, 0, 3, 0, 0, 0, 0, 0, 1, 0, 0, 0, 0, 0, 0, 0, 0] {} 5).charger_voltage
      = 15
    ∧ (decode_solar_charger_data
      [0x01, 0x03, 0x26, 0, 0, 0, 0x96, 0, 0, 0, 0, 7, 200, 0, 0, 0, 0, 0, 0, 0, 0x64,
        0, 0, 0, 0, 0, 0, 0, 3, 0, 0, 0, 0, 0, 1, 0, 0, 0, 0, 0, 0, 0, 0] {} 5).battery_temp
      = -72
    ∧ (decode_solar_charger_data
      [0x01, 0x03, 0x26, 0, 0, 0, 0x96, 0, 0, 0, 0, 7, 200, 0, 0, 0, 0, 0, 0, 0, 0x64,
        0, 0, 0, 0, 0, 0, 0, 3, 0, 0, 0, 0, 0, 1, 0, 0, 0, 0, 0, 0, 0, 0] {} 5).timestamp
      = 5 := by
  have h := claim_C5
    [0x01, 0x03, 0x26, 0, 0, 0, 0x96, 0, 0, 0, 0, 7, 200, 0, 0, 0, 0, 0, 0, 0, 0x64,
      0, 0, 0, 0, 0, 0, 0, 3, 0, 0, 0, 0, 0, 1, 0, 0, 0, 0, 0, 0, 0, 0] {} 5
    (by decide) (by decide) (by decide) (by decide)
  refine ⟨?_, ?_, ?_⟩ <;> rw [h] <;> norm_num [specBE]

/-- C3 counterexample to the claim as stated: decoding a voltage frame
into a state that already holds that exact voltage updates the timestamp
(3 becomes 7) even though no field actually changed value. -/
theorem claim_C3_counterexample :
    (decode_battery_monitor_data [0xBB, 0x02, 0x45, 0xC0, 0x00]
        { battery_voltage := 49 / 20, timestamp := 3 } 7).state
      = { battery_voltage := 49 / 20, timestamp := 7 }
    ∧ (7 : Nat) ≠ 3 := by
  constructor
  · simp [decode_battery_monitor_data, bmFinish, decodeBMLoop, intHex, bcdOk, bcdVal,
      bcdByte, is_cmd, recognizedCmd, applyCmd]
    norm_num
  · decide

/-- C3 (corrected): the timestamp is updated iff the decode performed at
least one recognized-field write (the source's `changed` flag) — which
happens even when the written value equals the field's previous value;
when no recognized field id fires, the reading, including its timestamp,
is returned entirely unchanged. Stated for frames whose decode does not
raise. -/
theorem claim_C3_amended (packet : List Nat) (st : State) (now : Nat)
    (h : (decode_battery_monitor_data packet st now).errored = false) :
    ((decode_battery_monitor_data packet st now).changed = true
        ∧ (decode_battery_monitor_data packet st now).state.timestamp = now)
      ∨ ((decode_battery_monitor_data packet st now).changed = false
        ∧ (decode_battery_monitor_data packet st now).state = st) := by
  unfold decode_battery_monitor_data bmFinish at *
  by_cases he : (decodeBMLoop st [] false ((packet.drop 1).dropLast)).errored = true
  · rw [if_pos he] at h
    rw [he] at h
    simp at h
  · rw [if_neg he] at h ⊢
    by_cases hc : (decodeBMLoop st [] false ((packet.drop 1).dropLast)).changed = true
    · rw [if_pos hc] at h ⊢
      left
      exact ⟨hc, rfl⟩
    · rw [if_neg hc] at h ⊢
      right
      have hc' : (decodeBMLoop st [] false ((packet.drop 1).dropLast)).changed = false := by
        revert hc
        cases (decodeBMLoop st [] false ((packet.drop 1).dropLast)).changed <;> simp
      exact ⟨hc', decodeBMLoop_state_of_not_changed _ _ _ _ hc'⟩

theorem claim_C3_amended_witness :
    (decode_battery_monitor_data [0xBB, 0x02, 0x45, 0xC0, 0x00] {} 7).errored = false
    ∧ (((decode_battery_monitor_data [0xBB, 0x02, 0x45, 0xC0, 0x00] {} 7).changed = true
        ∧ (decode_battery_monitor_data [0xBB, 0x02, 0x45, 0xC0, 0x00] {} 7).state.timestamp = 7)
      ∨ ((decode_battery_monitor_data [0xBB, 0x02, 0x45, 0xC0, 0x00] {} 7).changed = false
        ∧ (decode_battery_monitor_data [0xBB, 0x02, 0x45, 0xC0, 0x00] {} 7).state = {})) :=
  ⟨by decide, claim_C3_amended [0xBB, 0x02, 0x45, 0xC0, 0x00] {} 7 (by decide)⟩

/-- C9 counterexample to the claim as stated: with the global error
counter at 5 and three failed scan passes recorded, one loop iteration
that finds nothing performs the power-cycle and zeroes the error
counter, but the scanner's consecutive-failed-pass counter advances to 4
instead of being reset to zero. -/
theorem claim_C9_counterexample :
    scanIter ⟨5, 3, false, false, 0⟩ ⟨false, false⟩ = ⟨0, 4, false, false, 1⟩
    ∧ (4 : Nat) ≠ 0 := ⟨by decide, by decide⟩

/-- C9 (corrected): when the global error counter reaches 5, the
iteration performs exactly one adapter power-cycle, clears both device
handles (they rebind only to what this pass discovers), and resets the
global error counter to zero — but the scanner's failed-pass counter is
not reset by this path: it is zeroed only when both devices are found,
or by its own 10-failure reset (excluded here by the hypothesis). -/
theorem claim_C9_amended (st : ScanState) (inp : ScanFound) (h5 : 5 ≤ st.errorCount)
    (h10 : st.scanAttempts + 1 < 10) :
    (scanIter st inp).errorCount = 0
    ∧ (scanIter st inp).resets = st.resets + 1
    ∧ (scanIter st inp).bm = inp.foundBM
    ∧ (scanIter st inp).sc = inp.foundSC
    ∧ (scanIter st inp).scanAttempts
        = (if inp.foundBM && inp.foundSC then 0 else st.scanAttempts + 1) := by
  have h10' : ¬ 10 ≤ st.scanAttempts + 1 := by omega
  rcases inp with ⟨fb, fc⟩
  cases fb <;> cases fc <;> simp [scanIter, scanErrReset, scanPass, scanAfterMatch, h5, h10']

theorem claim_C9_amended_witness :
    5 ≤ (6 : Nat) ∧ (2 : Nat) + 1 < 10
    ∧ ((scanIter ⟨6, 2, true, false, 4⟩ ⟨true, false⟩).errorCount = 0
      ∧ (scanIter ⟨6, 2, true, false, 4⟩ ⟨true, false⟩).resets = (4 : Nat) + 1
      ∧ (scanIter ⟨6, 2, true, false, 4⟩ ⟨true, false⟩).bm = true
      ∧ (scanIter ⟨6, 2, true, false, 4⟩ ⟨true, false⟩).sc = false
      ∧ (scanIter ⟨6, 2, true, false, 4⟩ ⟨true, false⟩).scanAttempts
          = (if true && false then 0 else (2 : Nat) + 1)) :=
  ⟨by decide, by decide,
    claim_C9_amended ⟨6, 2, true, false, 4⟩ ⟨true, false⟩ (by decide) (by decide)⟩

/-- C10 counterexample to the claim as stated: a delivery whose first
frame makes the decoder raise aborts the callback before the safety
valve, so the 600 bytes left after that frame are retained — the buffer
does exceed 512 bytes across deliveries. -/
theorem claim_C10_counterexample :
    512 < (on_battery_monitor_data ⟨[], []⟩
        ([0xBB, 0x1F, 0xC0, 0x00, 0xEE] ++ List.replicate 600 0)).buf.length := by
  have hE : findEnd ([0xBB, 0x1F, 0xC0, 0x00, 0xEE] ++ List.replicate 600 0) = some 4 :=
    findEnd_append_some (by decide)
  have hS : findStart ([0xBB, 0x1F, 0xC0, 0x00, 0xEE] ++ List.replicate 600 0) = some 0 :=
    findStart_append_some (by decide)
  have htake : ((([0xBB, 0x1F, 0xC0, 0x00, 0xEE] ++ List.replicate 600 0).take 4).drop 0
      : List Nat) = [0xBB, 0x1F, 0xC0, 0x00] := by
    rw [List.take_append_of_le_length (by norm_num)]
    rfl
  have hdrop : (([0xBB, 0x1F, 0xC0, 0x00, 0xEE] ++ List.replicate 600 0).drop 5 : List Nat)
      = List.replicate 600 0 := by
    rw [List.drop_append_of_le_length (by norm_num)]
    rfl
  have hp : processBuf ([0xBB, 0x1F, 0xC0, 0x00, 0xEE] ++ List.replicate 600 0)
      = ⟨List.replicate 600 0, [[0xBB, 0x1F, 0xC0, 0x00]], true⟩ := by
    rw [processBuf_abort _ 4 0 hE hS (by omega) (by rw [htake]; decide), hdrop, htake]
  simp only [on_battery_monitor_data, List.nil_append, hp]
  rw [List.length_replicate]
  norm_num

/-- C10 (corrected): for every delivery in which no decoded frame raised
(so the callback ran to completion), the retained buffer is at most 512
bytes, and whenever the framing loop leaves more than 512 bytes the
whole buffer is discarded; when a frame raises, the exception skips the
safety valve and the buffer can exceed 512 bytes (see the
counterexample). -/
theorem claim_C10_amended (st : AsmState) (chunk : List Nat)
    (h : (processBuf (st.buf ++ chunk)).aborted = false) :
    (on_battery_monitor_data st chunk).buf.length ≤ 512
    ∧ (512 < (processBuf (st.buf ++ chunk)).residue.length →
        (on_battery_monitor_data st chunk).buf = []) := by
  constructor
  · simp only [on_battery_monitor_data]
    rw [if_neg (by simp [h])]
    split_ifs with h2
    · simp
    · omega
  · intro h2
    simp only [on_battery_monitor_data]
    rw [if_neg (by simp [h]), if_pos h2]

theorem claim_C10_amended_witness :
    (on_battery_monitor_data ⟨List.replicate 513 0, []⟩ []).buf = [] := by
  have hE : findEnd (List.replicate 513 0 ++ []) = none := by
    rw [List.append_nil]
    unfold findEnd
    rw [List.findIdx?_replicate]
    decide
  have hp := processBuf_noEnd _ hE
  have hab : (processBuf ((⟨List.replicate 513 0, []⟩ : AsmState).buf ++ ([] : List Nat))).aborted
      = false := by
    rw [show (⟨List.replicate 513 0, []⟩ : AsmState).buf = List.replicate 513 0 from rfl, hp]
  have h512 : 512 <
      (processBuf ((⟨List.replicate 513 0, []⟩ : AsmState).buf ++ ([] : List Nat))).residue.length := by
    rw [show (⟨List.replicate 513 0, []⟩ : AsmState).buf = List.replicate 513 0 from rfl, hp]
    rw [show (⟨List.replicate 513 0 ++ [], [], false⟩ : FrameLoopOut).residue
      = List.replicate 513 0 ++ [] from rfl]
    rw [List.append_nil, List.length_replicate]
    norm_num
  exact (claim_C10_amended ⟨List.replicate 513 0, []⟩ [] hab).2 h512

/-- C8 counterexample to the claim as stated: for the charger (5-second
window), a send happens at time 0, data arrives at time 1 (the callback
sets `last_sent = None`), and the next poll tick at time 2 issues
another write — only 2 seconds after the previous send, well inside the
window. -/
theorem claim_C8_counterexample :
    (kaRun 5 true none [KAEvent.tick 0, KAEvent.recv 1, KAEvent.tick 2]).2 = [0, 2]
    ∧ (2 : ℚ) - 0 < 5 := by
  constructor
  · rfl
  · norm_num

/-- C8 (corrected): during any stretch of the streaming loop in which no
data arrives (and writes succeed), consecutive keepalive writes are
separated by more than the role window, for either role; receiving data
instead reschedules: the battery monitor postpones the next keepalive,
while the charger's callback clears `last_sent`, triggering a write at
the very next poll tick regardless of the window. -/
theorem claim_C8_amended : ∀ (evs : List KAEvent) (w : ℚ) (r : Bool) (t0 : ℚ),
    allTicks evs = true →
    gapsOK w t0 (kaRun w r (some t0) evs).2 := by
  intro evs
  induction evs with
  | nil => intro w r t0 h; trivial
  | cons e es ih =>
    intro w r t0 h
    cases e with
    | recv now => simp [allTicks] at h
    | tick now =>
      have h' : allTicks es = true := by simpa [allTicks] using h
      simp only [kaRun, kaStep]
      by_cases hw : w < now - t0
      · rw [if_pos hw]
        exact ⟨hw, ih w r now h'⟩
      · rw [if_neg hw]
        exact ih w r t0 h'

theorem claim_C8_amended_witness :
    allTicks [KAEvent.tick 1, KAEvent.tick 10] = true
    ∧ gapsOK 5 0 (kaRun 5 true (some 0) [KAEvent.tick 1, KAEvent.tick 10]).2 :=
  ⟨by decide, claim_C8_amended [KAEvent.tick 1, KAEvent.tick 10] 5 true 0 (by decide)⟩

theorem pb_eval_frame : processBuf [0xBB, 0x02, 0x45, 0xC0, 0xEE]
    = ⟨[], [[0xBB, 0x02, 0x45, 0xC0]], false⟩ := by
  rw [processBuf_decode [0xBB, 0x02, 0x45, 0xC0, 0xEE] 4 0 (by decide) (by decide) (by decide)
    (by decide)]
  simp [processBuf_nil]

theorem cb_eval_frame : cleanBuf [0xBB, 0x02, 0x45, 0xC0, 0xEE] = true := by
  rw [cleanBuf_decode [0xBB, 0x02, 0x45, 0xC0, 0xEE] 4 0 (by decide) (by decide) (by decide)
    (by decide)]
  simp [cleanBuf_nil]

theorem pb_eval_prefix2 : processBuf [0xBB, 0x02] = ⟨[0xBB, 0x02], [], false⟩ :=
  processBuf_noEnd _ (by decide)

theorem cb_eval_prefix2 : cleanBuf [0xBB, 0x02] = true :=
  cleanBuf_noEnd _ (by decide)

theorem pb_eval_garbage : processBuf [0xEE, 0xBB, 0x02, 0x45, 0xC0, 0xEE]
    = ⟨[0xBB, 0x02, 0x45, 0xC0, 0xEE], [], false⟩ := by
  rw [processBuf_discard [0xEE, 0xBB, 0x02, 0x45, 0xC0, 0xEE] 0 1 (by decide) (by decide)
    (by decide)]
  rfl

theorem pb_eval_eebb : processBuf [0xEE, 0xBB] = ⟨[0xBB], [], false⟩ := by
  rw [processBuf_discard [0xEE, 0xBB] 0 1 (by decide) (by decide) (by decide)]
  rfl

/-- C1 counterexample to the claim as stated: the same six bytes
`EE BB 02 45 C0 EE` delivered as one chunk hand no frame to the decoder
(the garbage discard executes `break`, postponing the complete frame
that is already in the buffer), while delivered as `EE BB` then
`02 45 C0 EE` they hand over the frame `BB 02 45 C0`. -/
theorem claim_C1_counterexample :
    ([[0xEE, 0xBB, 0x02, 0x45, 0xC0, 0xEE]] : List (List Nat)).flatten
        = ([[0xEE, 0xBB], [0x02, 0x45, 0xC0, 0xEE]] : List (List Nat)).flatten
    ∧ (runChunks [[0xEE, 0xBB, 0x02, 0x45, 0xC0, 0xEE]]).frames
        ≠ (runChunks [[0xEE, 0xBB], [0x02, 0x45, 0xC0, 0xEE]]).frames := by
  constructor
  · rfl
  · have h1 : runChunks [[0xEE, 0xBB, 0x02, 0x45, 0xC0, 0xEE]]
        = ⟨[0xBB, 0x02, 0x45, 0xC0, 0xEE], []⟩ := by
      norm_num [runChunks, on_battery_monitor_data, pb_eval_garbage]
    have h2 : runChunks [[0xEE, 0xBB], [0x02, 0x45, 0xC0, 0xEE]]
        = ⟨[], [[0xBB, 0x02, 0x45, 0xC0]]⟩ := by
      norm_num [runChunks, on_battery_monitor_data, pb_eval_eebb, pb_eval_frame]
    rw [h1, h2]
    simp

/-- C1 (corrected): chunk-invariance holds for clean runs: if two
chunkings of the same byte sequence both keep the framing loop away from
the discard-and-break branch and from decoder-raising frames, and keep
every residue within 512 bytes, they hand the decoder identical frame
sequences. (The counterexample shows invariance fails in general: the
discard branch breaks out of the loop; the 512-byte purge and the
decoder-raise abort are also chunking-sensitive.) -/
theorem claim_C1_amended (c1 c2 : List (List Nat)) (hj : c1.flatten = c2.flatten)
    (h1 : cleanFrom [] c1 = true) (h2 : cleanFrom [] c2 = true) :
    (runChunks c1).frames = (runChunks c2).frames := by
  have key : ∀ cs : List (List Nat), cleanFrom [] cs = true →
      runChunks cs = ⟨(processBuf cs.flatten).residue, (processBuf cs.flatten).frames⟩ := by
    intro cs hc
    have h0 : cleanFrom (processBuf []).residue cs = true := by
      rw [processBuf_nil]
      exact hc
    have hr := runFrom_join cs [] [] cleanBuf_nil h0
    rw [processBuf_nil] at hr
    simpa [runChunks] using hr
  rw [key c1 h1, key c2 h2, hj]

theorem claim_C1_amended_witness :
    ([[0xBB, 0x02, 0x45, 0xC0, 0xEE]] : List (List Nat)).flatten
        = ([[0xBB, 0x02], [0x45, 0xC0, 0xEE]] : List (List Nat)).flatten
    ∧ cleanFrom [] [[0xBB, 0x02, 0x45, 0xC0, 0xEE]] = true
    ∧ cleanFrom [] [[0xBB, 0x02], [0x45, 0xC0, 0xEE]] = true
    ∧ (runChunks [[0xBB, 0x02, 0x45, 0xC0, 0xEE]]).frames
        = (runChunks [[0xBB, 0x02], [0x45, 0xC0, 0xEE]]).frames := by
  have hc1 : cleanFrom [] [[0xBB, 0x02, 0x45, 0xC0, 0xEE]] = true := by
    simp only [cleanFrom, List.nil_append, pb_eval_frame, cb_eval_frame, Bool.and_eq_true,
      decide_eq_true_eq]
    norm_num
  have hc2 : cleanFrom [] [[0xBB, 0x02], [0x45, 0xC0, 0xEE]] = true := by
    simp only [cleanFrom, List.nil_append, pb_eval_prefix2, cb_eval_prefix2, List.cons_append,
      pb_eval_frame, cb_eval_frame, Bool.and_eq_true, decide_eq_true_eq]
    norm_num
  exact ⟨rfl, hc1, hc2,
    claim_C1_amended [[0xBB, 0x02, 0x45, 0xC0, 0xEE]] [[0xBB, 0x02], [0x45, 0xC0, 0xEE]]
      rfl hc1 hc2⟩
